import Mathlib

set_option maxRecDepth 16384

/-!
Verification of the Go code-generation backend of the raml-client-generator
repository (src/targets/go/index.ts, current revision).  The TypeScript
source is shallowly embedded below: pure string manipulation becomes Lean
string functions, the mutable source-builder objects (Module/File/Struct/Func
from the missing lang.ts module) become explicit record states modelled from
the spec, and the `Request` class methods become state-passing functions.

Conventions of the embedding:
* JavaScript strings are Lean `String`s; `str.replace(/x/g, y)` (global
  regex replace with a literal pattern) is `replaceAll`, `str.replace(x, y)`
  with a string pattern (first occurrence only) is `replaceFirst`.
* Insignificant indentation whitespace inside multi-line template literals
  is not reproduced; every written chunk keeps its statements and line
  structure.
* `console.error("Unknown body type:", body.toJSON())` is modelled as
  appending the fixed message to a console log; the JSON dump operand is
  elided.
-/

/-- Scanner for `replaceAllL`: replaces every (leftmost, non-overlapping)
occurrence of `nd` by `repl`.  A positive `skip` count records characters
of a just-matched occurrence still to be consumed, so the recursion is
structural on the scanned list. -/
def replaceAllAux (nd repl : List Char) : Nat → List Char → List Char
  | _, [] => []
  | k + 1, _ :: cs => replaceAllAux nd repl k cs
  | 0, c :: cs =>
    if nd ≠ [] ∧ nd.isPrefixOf (c :: cs) then
      repl ++ replaceAllAux nd repl (nd.length - 1) cs
    else
      c :: replaceAllAux nd repl 0 cs

/-- Replaces every (leftmost, non-overlapping) occurrence of `nd` in the
character list by `repl`, mirroring JavaScript `str.replace(/nd/g, repl)`
for a literal pattern `nd`. -/
def replaceAllL (nd repl s : List Char) : List Char :=
  replaceAllAux nd repl 0 s

/-- String wrapper for `replaceAllL`. -/
def replaceAll (s nd repl : String) : String :=
  ⟨replaceAllL nd.data repl.data s.data⟩

/-- Replaces the first occurrence of `nd` by `repl`, mirroring JavaScript
`str.replace(nd, repl)` with a plain string pattern. -/
def replaceFirstL (nd repl : List Char) : List Char → List Char
  | [] => []
  | c :: cs =>
    if nd.isPrefixOf (c :: cs) then
      repl ++ (c :: cs).drop nd.length
    else
      c :: replaceFirstL nd repl cs

/-- String wrapper for `replaceFirstL`; an empty pattern is prepended, as in
JavaScript. -/
def replaceFirst (s nd repl : String) : String :=
  if nd.data = [] then repl ++ s else ⟨replaceFirstL nd.data repl.data s.data⟩

/-- upperFirst: uppercases the first character of the string
(`str.slice(0, 1).toUpperCase() + str.slice(1)`). -/
def upperFirst (s : String) : String :=
  match s.data with
  | [] => ""
  | c :: cs => ⟨c.toUpper :: cs⟩

/-- The `capitalizations` table: ordered list of (needle, replacement)
pairs, applied in order by `fixCaps`. -/
def capitalizations : List (String × String) :=
  [("Id", "ID"), ("Oauth", "OAuth")]

/-- fixCaps: applies each capitalization rule globally, in table order. -/
def fixCaps (s : String) : String :=
  capitalizations.foldl (fun str cap => replaceAll str cap.1 cap.2) s

/-- Splits a character list at maximal runs of characters satisfying `p`,
mirroring JavaScript `str.split(/[p]+/)`: empty pieces are kept at the
edges, and the empty string yields one empty piece. -/
def splitRunsL (p : Char → Bool) : List Char → List (List Char)
  | [] => [[]]
  | c :: cs =>
    if p c then
      match cs with
      | c2 :: _ => if p c2 then splitRunsL p cs else [] :: splitRunsL p cs
      | [] => [[], []]
    else
      match splitRunsL p cs with
      | [] => [[c]]
      | t :: rest => (c :: t) :: rest

/-- Splits a string on maximal runs of non-alphanumeric characters,
mirroring `name.split(/[^a-z0-9]+/ig)`. -/
def splitNonAlnum (s : String) : List String :=
  (splitRunsL (fun c => ¬ c.isAlphanum) s.data).map String.mk

/-- Removes every non-alphanumeric character, mirroring
`str.replace(/[^a-z0-9]/ig, "")`. -/
def stripNonAlnum (s : String) : String :=
  ⟨s.data.filter Char.isAlphanum⟩

/-- Splits a character list at every occurrence of the separator character,
mirroring JavaScript `str.split(sep)` for a one-character separator. -/
def splitOnCharL (sep : Char) : List Char → List (List Char)
  | [] => [[]]
  | c :: cs =>
    if c = sep then
      [] :: splitOnCharL sep cs
    else
      match splitOnCharL sep cs with
      | [] => [[c]]
      | t :: rest => (c :: t) :: rest

/-- String wrapper for `splitOnCharL`. -/
def splitOnChar (s : String) (sep : Char) : List String :=
  (splitOnCharL sep s.data).map String.mk

/-- Counts trailing `"[]"` pairs of a type string, given its character list
reversed; returns the count and the reversed remaining core.  This realizes
the source's `str.endsWith("[]")` recursion, which strips one `"[]"` suffix
per step, by counting all suffixes up front. -/
def arraySuffixDepth : List Char → Nat × List Char
  | ']' :: '[' :: rest =>
    let (n, core) := arraySuffixDepth rest
    (n + 1, core)
  | r => (0, r)

/-- The scalar branch of translateTypeString: a string containing `"|"`
(a union) degrades to `interface{}`; known scalar kinds go through the
fixed table; anything else passes through unchanged. -/
def translateTypeCore (core : String) : String :=
  if core.data.contains '|' then "interface\x7b\x7d"
  else if core = "string" then "string"
  else if core = "integer" then "int"
  else if core = "number" then "int"
  else if core = "uint" then "uint"
  else if core = "boolean" then "bool"
  else if core = "object" then "map[string]interface\x7b\x7d"
  else if core = "file" then "io.Reader"
  else if core = "IsoDate" then "time.Time"
  else if core = "UnixTimestampMillis" then "time.Time"
  else core

/-- translateTypeString: returns the Go type for a RAML type string.  Each
`"[]"` suffix of the input contributes a `"[]"` sequence qualifier, and the
remaining core goes through `translateTypeCore`. -/
def translateTypeString (s : String) : String :=
  let (n, coreRev) := arraySuffixDepth s.data.reverse
  String.join (List.replicate n "[]") ++ translateTypeCore ⟨coreRev.reverse⟩

/-- A RAML type declaration, carrying the fields of the
`api10.TypeDeclaration` surface that the generator reads: `name()`,
`type()`, `required()`, `items().type()` (for array declarations),
`displayName()` (the content kind, for bodies), and `properties()` (present
exactly on object-shaped declarations, the `"properties" in type` check). -/
inductive TypeDecl where
  | mk (name : String) (type : List String) (required : Bool)
       (itemsType : List String) (displayName : Option String)
       (properties : Option (List TypeDecl))

/-- The declaration's name. -/
def TypeDecl.name : TypeDecl → String
  | .mk n _ _ _ _ _ => n

/-- The declaration's `type()` list. -/
def TypeDecl.type : TypeDecl → List String
  | .mk _ t _ _ _ _ => t

/-- The declaration's `required()` flag. -/
def TypeDecl.required : TypeDecl → Bool
  | .mk _ _ r _ _ _ => r

/-- The declaration's `items().type()` list (array declarations). -/
def TypeDecl.itemsType : TypeDecl → List String
  | .mk _ _ _ i _ _ => i

/-- The declaration's `displayName()` (the content kind on bodies). -/
def TypeDecl.displayName : TypeDecl → Option String
  | .mk _ _ _ _ d _ => d

/-- The declaration's properties, present exactly on object declarations. -/
def TypeDecl.properties : TypeDecl → Option (List TypeDecl)
  | .mk _ _ _ _ _ p => p

/-- translateType: the Go type for a RAML type declaration.  Non-required
declarations are prefixed with the pointer qualifier `*`; an `array`
primary kind contributes `[]` and recurses into the item type; the result
passes through `fixCaps`. -/
def translateType (t : TypeDecl) : String :=
  let pre : String := if t.required then "" else "*"
  let primary := t.type.headD ""
  let body : String :=
    if primary = "array" then
      "[]" ++ translateTypeString (t.itemsType.headD "")
    else
      translateTypeString primary
  fixCaps (pre ++ body)

/-- translatePropName: the internal Go name for a JavaScript property.
Splits on runs of non-alphanumerics, title-cases each segment (skipping the
first when not exported), joins, renames a resulting literal `"type"` to
`"kind"`, and applies `fixCaps`. -/
def translatePropName (name : String) (isExported : Bool := true) : String :=
  let segs := splitNonAlnum name
  let joined := String.join
    (segs.enum.map fun p => if p.1 > 0 || isExported then upperFirst p.2 else p.2)
  let renamed := if joined = "type" then "kind" else joined
  fixCaps renamed

/-- A declared response: `code().value()` and `body()`. -/
structure RamlResponse where
  code : String
  body : List TypeDecl

/-- A trait applied to a method (`method.is()[i].trait()`): the generator
reads its query parameters and bodies. -/
structure RamlTrait where
  queryParameters : List TypeDecl
  body : List TypeDecl

/-- A method: HTTP verb, optional display name, own query parameters and
bodies, applied traits, and declared responses, in declaration order. -/
structure RamlMethod where
  method : String
  displayName : Option String
  queryParameters : List TypeDecl
  body : List TypeDecl
  is : List RamlTrait
  responses : List RamlResponse

/-- A resource: its absolute URI and the URI parameters of its chain, in
declaration order, plus its methods. -/
structure RamlResource where
  absoluteUri : String
  absoluteUriParameters : List TypeDecl
  methods : List RamlMethod

/-- JavaScript `Number(s)` restricted to the shapes status codes take:
`""` is 0, a digit string is its value, anything else is NaN (`none`). -/
def jsNumber (s : String) : Option Nat :=
  if s.data = [] then some 0
  else if s.data.all Char.isDigit then
    some (s.data.foldl (fun n c => n * 10 + (c.toNat - 48)) 0)
  else none

/-- The `Number(res.code().value()) < 300` test (false on NaN). -/
def codeBelow300 (s : String) : Bool :=
  match jsNumber s with
  | some n => n < 300
  | none => false

/-- getSuccessfulResponse: the first declared response whose status code,
read as a number, is below 300. -/
def getSuccessfulResponse (m : RamlMethod) : Option RamlResponse :=
  m.responses.find? fun res => codeBelow300 res.code

/-- Is the URI segment a parameter segment (`/^\{.+\}$/`)? -/
def isParamSeg (s : String) : Bool :=
  match s.data with
  | '{' :: _ :: c :: cs => (c :: cs).getLast? = some '}'
  | _ => false

/-- Does the string start with an uppercase-stable character
(`primary[0].toUpperCase() === primary[0]`)? -/
def firstCharUpper (s : String) : Bool :=
  match s.data with
  | c :: _ => c.toUpper = c
  | [] => false

/-- The `primary` value computed by inferMethodName:
`sr && sr.body().length && sr.body()[0].type()[0]`, as an option that is
`none` whenever the JavaScript value is falsy. -/
def inferPrimary (m : RamlMethod) : Option String :=
  match getSuccessfulResponse m with
  | none => none
  | some sr =>
    match sr.body.head? with
    | none => none
    | some b =>
      match b.type.head? with
      | none => none
      | some t => if t = "" then none else some t

/-- inferMethodName: the generated function name for a method on a
resource.  An explicit display name wins; otherwise the name is derived
from the URI segments (parameter segments stripped, each title-cased, the
first five dropped), with the successful response's primary type optionally
replacing the last segment, cleaned of non-alphanumerics, `fixCaps`-fixed,
and prefixed according to the HTTP verb; an unrecognized verb yields the
constant `"UNKNOWN"`. -/
def inferMethodName (resource : RamlResource) (m : RamlMethod) : String :=
  match m.displayName with
  | some d => d
  | none =>
    let parts := (((splitOnChar resource.absoluteUri '/').filter
        (fun seg => ¬ isParamSeg seg)).map upperFirst).drop 5
    let parts :=
      match inferPrimary m with
      | some t => if firstCharUpper t then parts.set (parts.length - 1) t else parts
      | none => parts
    let tail := fixCaps (stripNonAlnum (String.join parts))
    if m.method = "get" then "Get" ++ tail
    else if m.method = "post" then "Create" ++ tail
    else if m.method = "put" then "Update" ++ tail
    else if m.method = "patch" then "Update" ++ tail
    else if m.method = "delete" then "Delete" ++ tail
    else "UNKNOWN"

/-- A struct field: identifier, type string, optional serialization tag.
Modelled from the spec: the builder module (lang.ts) is not under src/;
§3 gives StructDefinition fields as (identifier, typeString,
serializationTag), the tag being absent on query-parameter fields. -/
structure GoField where
  name : String
  type : String
  tag : Option String
deriving DecidableEq, Inhabited

/-- Modelled from the spec: a StructDefinition — name plus ordered fields
(§3); at most one per name per Module, appended to in insertion order. -/
structure Struct where
  name : String
  fields : List GoField
deriving DecidableEq, Inhabited

/-- Modelled from the spec: a FunctionDefinition — name, optional receiver,
ordered args, ordered return types, ordered body segments (§3, §4.3). -/
structure Func where
  name : String
  receiver : Option String
  args : List (String × String)
  rets : List String
  body : List String
deriving DecidableEq, Inhabited

/-- Modelled from the spec: a File — deduplicated import set, structs and
functions in declaration order (§3); `idents` stands for the owning
Module's run-wide identifier registry (§3), which struct and function
creation extend and `getIdentifier` consults. -/
structure File where
  imports : List String
  structs : List Struct
  funcs : List Func
  idents : List String
deriving DecidableEq, Inhabited

/-- The empty file. -/
def File.empty : File := ⟨[], [], [], []⟩

/-- Modelled from the spec: `module.getIdentifier` — membership in the
run-wide identifier registry. -/
def File.getIdentifier (f : File) (n : String) : Bool :=
  f.idents.contains n

/-- Modelled from the spec: registering an import is idempotent (§4.3). -/
def File.addImport (f : File) (i : String) : File :=
  if f.imports.contains i then f else { f with imports := f.imports ++ [i] }

/-- Modelled from the spec: `file.struct(name)` obtains or creates a Struct
by name, idempotently (§4.3); creation registers the identifier. -/
def File.ensureStruct (f : File) (n : String) : File :=
  if f.structs.any (fun s => s.name == n) then f
  else { f with structs := f.structs ++ [⟨n, []⟩], idents := f.idents ++ [n] }

/-- Does the file already declare a struct with this name? -/
def File.hasStruct (f : File) (n : String) : Bool :=
  f.structs.any (fun s => s.name == n)

/-- The fields of the struct named `n` (empty when absent). -/
def File.structFields (f : File) (n : String) : List GoField :=
  ((f.structs.find? (fun s => s.name == n)).map Struct.fields).getD []

/-- Modelled from the spec: `struct.field(...)` appends a field, no dedup
(§4.3); the live struct reference is addressed here by its unique name. -/
def File.addField (f : File) (n : String) (fld : GoField) : File :=
  { f with structs := f.structs.map fun s =>
      if s.name == n then { s with fields := s.fields ++ [fld] } else s }

/-- Modelled from the spec: `func.arg(name, type)` appends an argument in
call order (§4.3). -/
def Func.addArg (fn : Func) (name type : String) : Func :=
  { fn with args := fn.args ++ [(name, type)] }

/-- Modelled from the spec: `func.returns(type)` appends a return type in
call order (§4.3). -/
def Func.addRet (fn : Func) (t : String) : Func :=
  { fn with rets := fn.rets ++ [t] }

/-- Modelled from the spec: `func.write(text)` appends a body segment
(§4.3). -/
def Func.writeBody (fn : Func) (s : String) : Func :=
  { fn with body := fn.body ++ [s] }

/-- Modelled from the spec: `file.func(name)` obtains a Function by name,
creating an empty one on first reference (§4.3). -/
def File.getFunc (f : File) (n : String) : Func :=
  (f.funcs.find? (fun g => g.name == n)).getD ⟨n, none, [], [], []⟩

/-- Modelled from the spec: writing the (live, mutated) Function back into
the file — replacing it in place when already declared, appending and
registering its identifier otherwise (§3, §4.3). -/
def File.putFunc (f : File) (fn : Func) : File :=
  if f.funcs.any (fun g => g.name == fn.name) then
    { f with funcs := f.funcs.map fun g => if g.name == fn.name then fn else g }
  else
    { f with funcs := f.funcs ++ [fn], idents := f.idents ++ [fn.name] }

/-- The mutable state of one `Request` generation: the file, the function
under construction, the three WriteCollectors (`options`, `before`,
`after`), and the process console log. -/
structure ReqState where
  file : File
  func : Func
  options : List String
  before : List String
  after : List String
  console : List String
deriving DecidableEq, Inhabited

/-- getPathFmtArgs: one argument per URI parameter beyond the first —
the non-exported translated name and the translated type, in declaration
order. -/
def getPathFmtArgs (r : RamlResource) : List (String × String) :=
  (r.absoluteUriParameters.drop 1).map fun param =>
    (translatePropName param.name false, translateType param)

/-- getPathFmtCall: the expression computing the request path.  With no
arguments it is the quoted URI (version placeholder replaced by "1") plus
`q`; otherwise `fmt` is imported, each remaining parameter's placeholder is
substituted by `%d` when its declared kind is `number` and `%s` otherwise,
and a `fmt.Sprintf` call is rendered (the spec-modelled `Call.toString`
joins the argument names with commas). -/
def getPathFmtCall (r : RamlResource) (f : File) : File × String :=
  let uri := replaceFirst r.absoluteUri "\x7bversion\x7d" "1"
  let args := getPathFmtArgs r
  if args.length = 0 then
    (f, "\"" ++ uri ++ "\" + q")
  else
    let f := f.addImport "fmt"
    let uri := (r.absoluteUriParameters.drop 1).foldl
      (fun u param => replaceFirst u ("\x7b" ++ param.name ++ "\x7d")
        (if param.type.headD "" = "number" then "%d" else "%s")) uri
    (f, "fmt.Sprintf(" ++
      String.intercalate ", " (("\"" ++ uri ++ "\"") :: args.map Prod.fst) ++
      ") + q")

/-- The method's query parameters together with those contributed by its
applied traits (`method.is().reduce(concat, method.queryParameters())`). -/
def resolvedQueryParams (m : RamlMethod) : List TypeDecl :=
  m.is.foldl (fun params trait => params ++ trait.queryParameters) m.queryParameters

/-- The method's bodies together with those contributed by its applied
traits (`method.is().reduce(concat, method.body())`). -/
def resolvedBody (m : RamlMethod) : List TypeDecl :=
  m.is.foldl (fun params trait => params ++ trait.body) m.body

/-- The fold step of generateQueryParams over one query parameter: append
the struct field and the `v.Set` line. -/
def queryParamStep (type : String) (st : ReqState) (prop : TypeDecl) : ReqState :=
  let propName := translatePropName prop.name
  { st with
    file := st.file.addField type
      ⟨propName, translateTypeString (prop.type.headD ""), none⟩,
    before := st.before ++
      ["v.Set(\"" ++ prop.name ++ "\", query." ++ propName ++ ")\n"] }

/-- generateQueryParams: with no resolved query parameters, write the empty
query-string constant; otherwise import net/url, obtain or create the
`<name>Params` struct, add the `query` argument, and write the
serialization lines, one field and one `v.Set` per parameter. -/
def generateQueryParams (m : RamlMethod) (st : ReqState) : ReqState :=
  let queryParams := resolvedQueryParams m
  if queryParams.length = 0 then
    { st with before := st.before ++ ["q := \"\"\n"] }
  else
    let type := st.func.name ++ "Params"
    let st := { st with
      file := (st.file.addImport "net/url").ensureStruct type,
      func := st.func.addArg "query" type,
      before := st.before ++ ["v := url.Values\x7b\x7d\n"] }
    let st := queryParams.foldl (queryParamStep type) st
    { st with before := st.before ++ ["q := \"?\" + v.Encode()\n"] }

/-- generateStruct's inner `gen` recursion, fuel-bounded: a non-object
declaration contributes nothing; an object declaration contributes one
field per property, followed depth-first by the fields of each supertype
named in its `type()` list that resolves in `api.types()`.  The source
performs this recursion with no cycle detection; `none` means the fuel
bound was exceeded. -/
def genStructFields (api : List TypeDecl) : Nat → TypeDecl → Option (List GoField)
  | 0, _ => none
  | fuel + 1, t =>
    match t.properties with
    | none => some []
    | some props =>
      let own := props.map fun prop =>
        GoField.mk (translatePropName prop.name) (translateType prop)
          (some ("json:\"" ++ prop.name ++ "\""))
      match t.type.mapM (fun subtype =>
          match api.find? (fun ty => ty.name == subtype) with
          | none => some []
          | some ty => genStructFields api fuel ty) with
      | none => none
      | some subs => some (own ++ subs.flatten)

/-- generateStruct: obtain or create the named struct and append the
flattened fields of the type declaration (fuel-bounded recursion). -/
def generateStruct (f : File) (api : List TypeDecl) (name : String)
    (t : TypeDecl) (fuel : Nat) : Option File :=
  let f := f.ensureStruct name
  match genStructFields api fuel t with
  | none => none
  | some fields => some (fields.foldl (fun f fld => f.addField name fld) f)

/-- The state updates of generateBodyParams's application/json case, given
the payload type name: add the `payload` argument, import bytes and
encoding/json, write the marshal block and the request-body options. -/
def jsonBodyEmit (st : ReqState) (type : String) : ReqState :=
  { st with
    func := st.func.addArg "payload" type,
    file := (st.file.addImport "bytes").addImport "encoding/json",
    before := st.before ++
      ["body, err := json.Marshal(payload)\nif err != nil \x7b\nreturn err\n\x7d\n"],
    options := st.options ++
      ["Body: bytes.NewReader(body),\nContentLength: len(body),\nHeader: http.Header\x7b\"Content-Type\": \x7b\"application/json\"\x7d\x7d,\n"] }

/-- generateBodyParams: take the first resolved body, if any.  A body whose
content kind is application/json gets payload serialization (declaring a
`<name>Payload` struct unless the body's type already names a generated
identifier); multipart/form-data is a todo and is skipped; any other kind
logs "Unknown body type:" to the console and generation continues. -/
def generateBodyParams (fuel : Nat) (api : List TypeDecl) (m : RamlMethod)
    (st : ReqState) : Option ReqState :=
  match (resolvedBody m).head? with
  | none => some st
  | some body =>
    if body.displayName == some "application/json" then
      let type0 := translateTypeString (body.type.headD "")
      if st.file.getIdentifier type0 then
        some (jsonBodyEmit st type0)
      else
        let type := st.func.name ++ "Payload"
        match generateStruct st.file api type body fuel with
        | none => none
        | some f => some (jsonBodyEmit { st with file := f } type)
    else if body.displayName == some "multipart/form-data" then
      some st
    else
      some { st with console := st.console ++ ["Unknown body type:"] }

/-- generateFuncReturns: always return `*http.Response`, then the
translated first-body type of the successful response when it declares one,
then `error`; with no successful response the after-block is the plain
two-value return, otherwise it is the status-check/decode template, whose
interpolations of an undefined `resType` render as the empty string and the
text "undefined" (JavaScript template-literal semantics). -/
def generateFuncReturns (m : RamlMethod) (st : ReqState) : ReqState :=
  let goodRes := getSuccessfulResponse m
  let resType : Option String :=
    match goodRes with
    | some r =>
      match r.body with
      | b :: _ => some (translateType b)
      | [] => none
    | none => none
  let func := st.func.addRet "*http.Response"
  let func := match resType with
    | some t => func.addRet t
    | none => func
  let func := func.addRet "error"
  match goodRes with
  | none => { st with func := func, after := st.after ++ ["return res, err\n"] }
  | some _ =>
    { st with func := func, after := st.after ++
      ["if err != nil || res.StatusCode >= 300 \x7b\nreturn res, " ++
        (match resType with | some _ => "nil, " | none => "") ++
        "err\n\x7d\n\nvar typ " ++
        (match resType with | some t => t | none => "undefined") ++
        "\nif err := json.NewDecoder(res.Body).Decode(&typ); err != nil \x7b\nreturn err\n\x7d\n\nreturn res, typ, nil\n"] }

/-- Request.method: generate the client function for one method of a
resource — import net/http, obtain the function named by inferMethodName,
set the receiver, add the path arguments, then run the query, body and
return steps and write the full body template.  Returns the updated file
and the console log; `none` only when the body-struct fuel runs out. -/
def requestMethod (fuel : Nat) (api : List TypeDecl) (resource : RamlResource)
    (m : RamlMethod) (file : File) : Option (File × List String) :=
  let file := file.addImport "net/http"
  let func := file.getFunc (inferMethodName resource m)
  let func := { func with receiver := some "c *Client" }
  let func := (getPathFmtArgs resource).foldl (fun fn a => fn.addArg a.1 a.2) func
  let st : ReqState := ⟨file, func, [], [], [], []⟩
  let st := generateQueryParams m st
  match generateBodyParams fuel api m st with
  | none => none
  | some st =>
    let st := generateFuncReturns m st
    let (file', call) := getPathFmtCall resource st.file
    let bodyText :=
      String.intercalate "" st.before ++
      "res, err := c.do(&http.Request\x7b\nMethod: \"" ++ m.method ++
      "\",\nURL: " ++ call ++ ",\n" ++
      String.intercalate "" st.options ++ "\x7d)\n" ++
      String.intercalate "" st.after
    some (file'.putFunc (st.func.writeBody bodyText), st.console)

/-- The type declaration with its required flag replaced (used to compare a
translation against its unqualified form). -/
def TypeDecl.setRequired : TypeDecl → Bool → TypeDecl
  | .mk n ty _ i d p, b => .mk n ty b i d p

/-- Does `sub` occur as a contiguous substring of the list? -/
def hasInfix (sub : List Char) : List Char → Bool
  | [] => sub.isEmpty
  | c :: cs => sub.isPrefixOf (c :: cs) || hasInfix sub cs

/-- Does `sub` occur as a contiguous substring of `s`? -/
def containsSub (s sub : String) : Bool :=
  hasInfix sub.data s.data

/-- Does the translated type string carry the pointer qualifier? -/
def starPrefixed (s : String) : Bool :=
  match s.data with
  | '*' :: _ => true
  | _ => false

/-- Modelled from the spec: the claim's reading of "numeric declared kind" —
RAML's numeric kinds are `number` and `integer`.  Used only to state the
counterexample for the placeholder-substitution claim. -/
def numericKindSpec (k : String) : Bool :=
  k = "number" || k = "integer"

/-- The placeholder the source substitutes for a URI parameter: `%d`
exactly when the declared kind is the literal `number`, `%s` otherwise. -/
def placeholderOf (p : TypeDecl) : String :=
  if p.type.headD "" = "number" then "%d" else "%s"

/-- Applies `f` to every maximal alphanumeric run of the list, leaving the
other characters in place. -/
def mapWordsAux (f : List Char → List Char) (acc : List Char) : List Char → List Char
  | [] => f acc.reverse
  | c :: cs =>
    if c.isAlphanum then mapWordsAux f (c :: acc) cs
    else f acc.reverse ++ [c] ++ mapWordsAux f [] cs

/-- Modelled from the spec: the claim's reading of the acronym pass as a
whole-word replacement — each rule, in table order, rewrites exactly the
maximal alphanumeric runs equal to its needle.  Used only to state the
counterexample against the "only to whole words" wording. -/
def fixCapsWholeWord (s : String) : String :=
  capitalizations.foldl
    (fun str cap =>
      ⟨mapWordsAux (fun w => if w = cap.1.data then cap.2.data else w) [] str.data⟩)
    s

/-- A self-inheriting object type: type `A` lists `A` itself in its
supertype chain, the minimal type-inheritance cycle. -/
def cyclicType : TypeDecl :=
  .mk "A" ["A"] true [] none (some [.mk "x" ["string"] true [] none none])

/-- An API model whose only type declaration is the cyclic `A`. -/
def cyclicApi : List TypeDecl := [cyclicType]

/-- A method whose only declared response has status 200 and no body. -/
def noBodySuccessMethod : RamlMethod :=
  ⟨"get", none, [], [], [], [⟨"200", []⟩]⟩

/-- A request state holding an empty file and a bare function under
construction. -/
def emptyReqState (funcName : String) : ReqState :=
  ⟨File.empty, ⟨funcName, none, [], [], []⟩, [], [], [], []⟩

/-- Claim C6, counterexample: the acronym rules are not restricted to whole
words — the `Id` rule fires inside the single word "Identity", where the
spec-worded whole-word pass leaves it unchanged. -/
theorem fixCaps_fires_inside_words :
    fixCaps "Identity" = "IDentity" ∧ fixCapsWholeWord "Identity" = "Identity" ∧
      fixCaps "Identity" ≠ fixCapsWholeWord "Identity" := by
  decide

/-- Claim C6 (amended): the acronym-fix pass applies its rules in the fixed
table order, each globally to every occurrence of its needle (whole word or
not), and the rules compose: "OauthId" becomes "OAuthID" with both rules
firing. -/
theorem fixCaps_composes :
    fixCaps "OauthId" = "OAuthID" ∧ fixCaps "IdId" = "IDID" := by
  decide

/-- Claim C4, counterexample: the reserved-keyword rename does not fire for
an exported resolution of "type" — the segment is title-cased to "Type"
before the rename table is consulted, so the result is "Type", not the
"Kind" the claim demands. -/
theorem translatePropName_type_exported :
    translatePropName "type" true = "Type" ∧ translatePropName "type" true ≠ "Kind" := by
  decide

/-- Claim C4 (amended): the rename table is consulted after the segments
are joined, so it fires only when the joined result is literally "type" —
that is, only for the non-exported resolution, which yields "kind"; the
exported resolution yields "Type". -/
theorem translatePropName_type_rename :
    ∀ e : Bool, translatePropName "type" e = if e then "Type" else "kind" := by
  decide

/-- Claim C10: a method with no explicit display name and an HTTP verb
outside get/post/put/patch/delete derives the constant endpoint name
"UNKNOWN" — the generator does not fail on unrecognized verbs. -/
theorem inferMethodName_unknown_verb (r : RamlResource) (m : RamlMethod)
    (h1 : m.displayName = none)
    (h2 : m.method ∉ ["get", "post", "put", "patch", "delete"]) :
    inferMethodName r m = "UNKNOWN" := by
  obtain ⟨hg, hpo, hpu, hpa, hd⟩ :
      m.method ≠ "get" ∧ m.method ≠ "post" ∧ m.method ≠ "put" ∧
        m.method ≠ "patch" ∧ m.method ≠ "delete" := by
    simp only [List.mem_cons, List.mem_singleton, not_or] at h2
    simpa using h2
  simp only [inferMethodName, h1]
  rw [if_neg hg, if_neg hpo, if_neg hpu, if_neg hpa, if_neg hd]

/-- Witness for the unknown-verb claim at a concrete resource and method. -/
theorem inferMethodName_unknown_verb_witness :
    inferMethodName ⟨"https://x.com/api/v1/things", [], []⟩
      ⟨"options", none, [], [], [], []⟩ = "UNKNOWN" :=
  inferMethodName_unknown_verb _ _ rfl (by decide)

/-- One unfolding step of `genStructFields` on the cyclic type. -/
theorem genStructFields_cyclic_aux :
    ∀ fuel, genStructFields cyclicApi fuel cyclicType = none := by
  intro fuel
  induction fuel with
  | zero => rfl
  | succ n ih =>
    simp only [cyclicApi, cyclicType] at ih
    simp only [genStructFields, cyclicApi, cyclicType, TypeDecl.properties,
      TypeDecl.type, TypeDecl.name, List.mapM_cons, List.mapM_nil,
      List.find?_cons]
    simp [ih]

/-- Claim C2: the struct-flattening recursion does not terminate on a
type-inheritance cycle — at the self-inheriting type `A`, the fuel-bounded
embedding of `generateStruct` exhausts any fuel bound instead of producing
a result, and no error is reported (the source has no cycle detection). -/
theorem generateStruct_cycle_diverges (fuel : Nat) (file : File) :
    generateStruct file cyclicApi "A" cyclicType fuel = none := by
  simp only [generateStruct, genStructFields_cyclic_aux fuel]

/-- Claim C3: for a method whose only (successful) response declares no
body, the generated signature does return exactly two values — but the
emitted after-block still decodes the response payload and returns three
values (`return res, typ, nil`), declaring `var typ undefined`: the
decode template is emitted whenever a successful response exists, body or
not. -/
theorem generateFuncReturns_noBody_decodes :
    (generateFuncReturns noBodySuccessMethod (emptyReqState "GetThing")).func.rets
        = ["*http.Response", "error"] ∧
      (generateFuncReturns noBodySuccessMethod (emptyReqState "GetThing")).after
        = ["if err != nil || res.StatusCode >= 300 \x7b\nreturn res, err\n\x7d\n\nvar typ undefined\nif err := json.NewDecoder(res.Body).Decode(&typ); err != nil \x7b\nreturn err\n\x7d\n\nreturn res, typ, nil\n"] ∧
      containsSub
        (String.join (generateFuncReturns noBodySuccessMethod (emptyReqState "GetThing")).after)
        "return res, typ, nil" = true ∧
      containsSub
        (String.join (generateFuncReturns noBodySuccessMethod (emptyReqState "GetThing")).after)
        ".Decode(&typ)" = true := by
  decide

/-- A request body whose content kind (displayName) is multipart/form-data. -/
def multipartBody : TypeDecl :=
  .mk "b" ["object"] true [] (some "multipart/form-data") (some [])

/-- A method posting a multipart/form-data body. -/
def multipartMethod : RamlMethod :=
  ⟨"post", none, [], [multipartBody], [], []⟩

/-- A resource carrying the multipart method. -/
def multipartResource : RamlResource :=
  ⟨"https://x.com/api/v1/things", [], [multipartMethod]⟩

/-- Claim C1, counterexample: generating an operation whose first resolved
body kind is multipart/form-data does not fail — the full method-generation
step completes and emits the operation's function (with no payload argument
and no body options), and nothing is even logged. -/
theorem requestMethod_multipart_completes :
    requestMethod 10 [] multipartResource multipartMethod File.empty =
      some (⟨["net/http"], [],
        [⟨"CreateThings", some "c *Client", [], ["*http.Response", "error"],
          ["q := \"\"\nres, err := c.do(&http.Request\x7b\nMethod: \"post\",\nURL: \"https://x.com/api/v1/things\" + q,\n\x7d)\nreturn res, err\n"]⟩],
        ["CreateThings"]⟩, []) := by
  decide

/-- Claim C1 (amended): for a first resolved body whose content kind is
neither application/json nor absent, generation of the operation does not
fail: a multipart/form-data body is skipped silently (a todo in the
source), and any other kind only logs "Unknown body type:" to the console;
in both cases the state is otherwise unchanged and generation continues. -/
theorem generateBodyParams_nonjson (fuel : Nat) (api : List TypeDecl)
    (m : RamlMethod) (st : ReqState) (b : TypeDecl)
    (h1 : (resolvedBody m).head? = some b)
    (h2 : b.displayName ≠ some "application/json") :
    generateBodyParams fuel api m st =
      some (if b.displayName = some "multipart/form-data" then st
            else { st with console := st.console ++ ["Unknown body type:"] }) := by
  have hb1 : (b.displayName == some "application/json") = false := by
    simpa using h2
  by_cases hb2 : b.displayName = some "multipart/form-data"
  · simp [generateBodyParams, h1, hb1, hb2]
  · have hb2' : (b.displayName == some "multipart/form-data") = false := by
      simpa using hb2
    simp [generateBodyParams, h1, hb1, hb2', hb2]

/-- Witness for the amended body-kind claim at the multipart method. -/
theorem generateBodyParams_nonjson_witness :
    generateBodyParams 5 [] multipartMethod (emptyReqState "CreateThings") =
      some (if multipartBody.displayName = some "multipart/form-data"
            then emptyReqState "CreateThings"
            else { emptyReqState "CreateThings" with
                    console := (emptyReqState "CreateThings").console ++ ["Unknown body type:"] }) :=
  generateBodyParams_nonjson 5 [] multipartMethod (emptyReqState "CreateThings")
    multipartBody rfl (by decide)

/-- A replacement scan skips a leading character that cannot start the
needle. -/
theorem replaceAllAux_cons_of_ne (nd repl : List Char) (c : Char) (cs : List Char)
    (h : nd.head? ≠ some c) :
    replaceAllAux nd repl 0 (c :: cs) = c :: replaceAllAux nd repl 0 cs := by
  cases nd with
  | nil => simp [replaceAllAux]
  | cons n0 nd' =>
    have hne : (n0 == c) = false := by
      simp only [List.head?] at h
      simpa using h
    simp [replaceAllAux, List.isPrefixOf, hne]

/-- fixCaps unfolded on the concrete rule table. -/
theorem fixCaps_data (l : List Char) :
    (fixCaps ⟨l⟩).data =
      replaceAllAux "Oauth".data "OAuth".data 0
        (replaceAllAux "Id".data "ID".data 0 l) := rfl

/-- The capitalization fixups never touch a leading `*` qualifier. -/
theorem fixCaps_star (l : List Char) :
    (fixCaps ⟨'*' :: l⟩).data = '*' :: (fixCaps ⟨l⟩).data := by
  rw [fixCaps_data, fixCaps_data,
    replaceAllAux_cons_of_ne _ _ _ _ (by decide),
    replaceAllAux_cons_of_ne _ _ _ _ (by decide)]

/-- Prepending the pointer qualifier commutes with the capitalization
fixups. -/
theorem fixCaps_star_append (s : String) : fixCaps ("*" ++ s) = "*" ++ fixCaps s := by
  apply String.ext
  have h1 : (fixCaps ("*" ++ s)).data = (fixCaps ⟨'*' :: s.data⟩).data := rfl
  rw [h1, fixCaps_star, String.data_append]
  rfl

/-- A string starting with the pointer qualifier is star-prefixed. -/
theorem starPrefixed_star_append (s : String) : starPrefixed ("*" ++ s) = true := rfl

/-- Claim C7: the translated type string carries the pointer qualifier `*`
exactly when the declaration is not required — the translation of any
declaration is its unqualified (required) translation, `*`-prefixed when
the required flag is false; and whenever the unqualified translation does
not itself begin with `*` (true of every RAML-named type), the `*` prefix
characterizes `required = false`. -/
theorem translateType_nullable (t : TypeDecl) :
    translateType t =
        (if t.required then "" else "*") ++ translateType (t.setRequired true) ∧
      (starPrefixed (translateType (t.setRequired true)) = false →
        (starPrefixed (translateType t) = true ↔ t.required = false)) := by
  obtain ⟨n, ty, r, i, d, p⟩ := t
  cases r
  case false =>
    have hempty : ∀ s : String, ("" : String) ++ s = s := fun s => String.ext (by simp)
    have keyT : translateType (TypeDecl.mk n ty false i d p) =
        "*" ++ translateType (TypeDecl.mk n ty true i d p) := by
      simp only [translateType, TypeDecl.required, TypeDecl.type, TypeDecl.itemsType]
      simp only [Bool.false_eq_true, if_false, if_true, hempty]
      rw [fixCaps_star_append]
    refine ⟨?_, ?_⟩
    · simpa [TypeDecl.setRequired, TypeDecl.required] using keyT
    · intro _
      simp only [TypeDecl.required]
      rw [keyT, starPrefixed_star_append]
      simp
  case true =>
    have hsame : (TypeDecl.mk n ty true i d p).setRequired true =
        TypeDecl.mk n ty true i d p := rfl
    refine ⟨?_, ?_⟩
    · rw [hsame]
      simp only [TypeDecl.required, if_true]
      exact String.ext (by simp)
    · intro hs
      rw [hsame] at hs
      simp [TypeDecl.required, hs]

/-- Witness for the nullable-qualifier claim at a required string property. -/
theorem translateType_nullable_witness :
    starPrefixed (translateType ((TypeDecl.mk "p" ["string"] false [] none none).setRequired true)) = false ∧
      (starPrefixed (translateType (TypeDecl.mk "p" ["string"] false [] none none)) = true ↔
        (TypeDecl.mk "p" ["string"] false [] none none).required = false) :=
  ⟨by decide, (translateType_nullable (TypeDecl.mk "p" ["string"] false [] none none)).2 (by decide)⟩

/-- A successful `find?` splits the list at the first satisfying element. -/
theorem find?_decompose {α : Type} (p : α → Bool) (l : List α) (a : α)
    (h : l.find? p = some a) :
    p a = true ∧ ∃ pre post, l = pre ++ a :: post ∧ ∀ x ∈ pre, p x = false := by
  induction l with
  | nil => simp at h
  | cons b bs ih =>
    by_cases hb : p b = true
    · rw [List.find?_cons_of_pos _ hb] at h
      obtain rfl : b = a := by injection h
      exact ⟨hb, [], bs, rfl, by simp⟩
    · rw [List.find?_cons_of_neg _ (by simpa using hb)] at h
      obtain ⟨hp, pre, post, heq, hpre⟩ := ih h
      refine ⟨hp, b :: pre, post, by simp [heq], ?_⟩
      intro x hx
      rcases List.mem_cons.mp hx with rfl | hx'
      · simpa using hb
      · exact hpre x hx'

/-- Claim C9: the response selected for return-type and decode generation
is the first declared response whose status code reads numerically below
300; and when no such response exists, the generated function gains exactly
the two return types `*http.Response` and `error`, no extra argument, and
its after-block is the bare two-value return, with no decoding code. -/
theorem getSuccessfulResponse_spec (m : RamlMethod) (st : ReqState) :
    (∀ r, getSuccessfulResponse m = some r →
      codeBelow300 r.code = true ∧
        ∃ pre post, m.responses = pre ++ r :: post ∧
          ∀ x ∈ pre, codeBelow300 x.code = false) ∧
      (getSuccessfulResponse m = none →
        (generateFuncReturns m st).func.rets = st.func.rets ++ ["*http.Response", "error"] ∧
          (generateFuncReturns m st).after = st.after ++ ["return res, err\n"] ∧
          (generateFuncReturns m st).func.args = st.func.args) := by
  constructor
  · intro r hr
    exact find?_decompose _ _ _ hr
  · intro hnone
    simp [generateFuncReturns, hnone, Func.addRet]

/-- Witness for the response-selection claim: a method whose responses are
404, 200, 201 selects the 200 response; a method with only a 404 response
generates the two-value signature and return. -/
theorem getSuccessfulResponse_spec_witness :
    (codeBelow300 (RamlResponse.mk "200" []).code = true ∧
      ∃ pre post,
        (RamlMethod.mk "get" none [] [] [] [⟨"404", []⟩, ⟨"200", []⟩, ⟨"201", []⟩]).responses
          = pre ++ ⟨"200", []⟩ :: post ∧
        ∀ x ∈ pre, codeBelow300 x.code = false) ∧
      ((generateFuncReturns (RamlMethod.mk "get" none [] [] [] [⟨"404", []⟩]) (emptyReqState "GetA")).func.rets
          = (emptyReqState "GetA").func.rets ++ ["*http.Response", "error"] ∧
        (generateFuncReturns (RamlMethod.mk "get" none [] [] [] [⟨"404", []⟩]) (emptyReqState "GetA")).after
          = (emptyReqState "GetA").after ++ ["return res, err\n"] ∧
        (generateFuncReturns (RamlMethod.mk "get" none [] [] [] [⟨"404", []⟩]) (emptyReqState "GetA")).func.args
          = (emptyReqState "GetA").func.args) :=
  ⟨(getSuccessfulResponse_spec (RamlMethod.mk "get" none [] [] [] [⟨"404", []⟩, ⟨"200", []⟩, ⟨"201", []⟩]) (emptyReqState "GetA")).1
      ⟨"200", []⟩ rfl,
    (getSuccessfulResponse_spec (RamlMethod.mk "get" none [] [] [] [⟨"404", []⟩]) (emptyReqState "GetA")).2 rfl⟩

/-- The version (base) URI parameter, always first in the chain. -/
def versionParam : TypeDecl := .mk "version" ["string"] true [] none none

/-- A URI parameter with the numeric declared kind `integer`. -/
def countParam : TypeDecl := .mk "count" ["integer"] true [] none none

/-- A resource whose URI chain has the base version parameter plus one
integer-kinded parameter. -/
def countResource : RamlResource :=
  ⟨"https://x.com/api/\x7bversion\x7d/things/\x7bcount\x7d", [versionParam, countParam], []⟩

/-- A resource with no URI parameters beyond the base version parameter. -/
def versionOnlyResource : RamlResource :=
  ⟨"https://x.com/api/\x7bversion\x7d/things", [versionParam], []⟩

/-- Claim C8, counterexample: a URI parameter of the numeric declared kind
`integer` is substituted with the string placeholder `%s`, not the numeric
placeholder — the source compares the kind against the literal `number`
only, so the emitted format string for the integer parameter contains `%s`
and no `%d` at all. -/
theorem getPathFmtCall_integer_placeholder :
    numericKindSpec (countParam.type.headD "") = true ∧
      (getPathFmtCall countResource File.empty).2 =
        "fmt.Sprintf(\"https://x.com/api/1/things/%s\", count) + q" ∧
      containsSub (getPathFmtCall countResource File.empty).2 "%d" = false := by
  decide

/-- Claim C8 (amended): the path arguments are exactly the resource's URI
parameters minus the first, in declaration order (zero parameters beyond
the first yield zero arguments and the plain quoted-URI expression), and in
the positional format expression each parameter whose declared kind is the
literal `number` is substituted with `%d` while every other kind —
including the numeric kind `integer` — gets `%s`. -/
theorem getPathFmtArgs_spec (r : RamlResource) (f : File) :
    ((r.absoluteUriParameters.drop 1).length = 0 →
      getPathFmtArgs r = [] ∧
        (getPathFmtCall r f).2 =
          "\"" ++ replaceFirst r.absoluteUri "\x7bversion\x7d" "1" ++ "\" + q") ∧
      (getPathFmtArgs r).map Prod.fst =
        (r.absoluteUriParameters.drop 1).map (fun p => translatePropName p.name false) ∧
      (getPathFmtArgs r).length = (r.absoluteUriParameters.drop 1).length ∧
      ((r.absoluteUriParameters.drop 1).length ≠ 0 →
        (getPathFmtCall r f).2 =
          "fmt.Sprintf(" ++
            String.intercalate ", "
              (("\"" ++
                (r.absoluteUriParameters.drop 1).foldl
                  (fun u p => replaceFirst u ("\x7b" ++ p.name ++ "\x7d") (placeholderOf p))
                  (replaceFirst r.absoluteUri "\x7bversion\x7d" "1") ++ "\"")
                :: (r.absoluteUriParameters.drop 1).map (fun p => translatePropName p.name false)) ++
            ") + q") := by
  have hlen : (getPathFmtArgs r).length = (r.absoluteUriParameters.drop 1).length := by
    simp [getPathFmtArgs]
  have hfst : (getPathFmtArgs r).map Prod.fst =
      (r.absoluteUriParameters.drop 1).map (fun p => translatePropName p.name false) := by
    unfold getPathFmtArgs
    rw [List.map_map]
    rfl
  refine ⟨?_, hfst, hlen, ?_⟩
  · intro h0
    have hnil : r.absoluteUriParameters.drop 1 = [] := List.length_eq_zero.mp h0
    refine ⟨by simp [getPathFmtArgs, hnil], ?_⟩
    simp [getPathFmtCall, getPathFmtArgs, hnil]
  · intro h0
    have hne : ¬ (getPathFmtArgs r).length = 0 := by
      rw [hlen]; exact h0
    simp only [getPathFmtCall, if_neg hne]
    rw [hfst]
    simp [placeholderOf]

/-- Witness for the path-argument claim: the version-only resource yields
zero path arguments and the quoted-URI expression; the integer-parameter
resource yields the foldl-substituted format call. -/
theorem getPathFmtArgs_spec_witness :
    (getPathFmtArgs versionOnlyResource = [] ∧
      (getPathFmtCall versionOnlyResource File.empty).2 =
        "\"" ++ replaceFirst versionOnlyResource.absoluteUri "\x7bversion\x7d" "1" ++ "\" + q") ∧
      (getPathFmtCall countResource File.empty).2 =
        "fmt.Sprintf(" ++
          String.intercalate ", "
            (("\"" ++
              (countResource.absoluteUriParameters.drop 1).foldl
                (fun u p => replaceFirst u ("\x7b" ++ p.name ++ "\x7d") (placeholderOf p))
                (replaceFirst countResource.absoluteUri "\x7bversion\x7d" "1") ++ "\"")
              :: (countResource.absoluteUriParameters.drop 1).map
                  (fun p => translatePropName p.name false)) ++
          ") + q" :=
  ⟨(getPathFmtArgs_spec versionOnlyResource File.empty).1 (by decide),
    (getPathFmtArgs_spec countResource File.empty).2.2.2 (by decide)⟩

/-- Adding an import leaves the file's structs untouched. -/
theorem addImport_structs (f : File) (i : String) : (f.addImport i).structs = f.structs := by
  unfold File.addImport
  split <;> rfl

/-- Adding an import leaves every struct lookup untouched. -/
theorem structFields_addImport (f : File) (i t : String) :
    (f.addImport i).structFields t = f.structFields t := by
  unfold File.structFields
  rw [addImport_structs]

/-- Adding an import preserves struct existence. -/
theorem hasStruct_addImport (f : File) (i t : String) :
    (f.addImport i).hasStruct t = f.hasStruct t := by
  unfold File.hasStruct
  rw [addImport_structs]

/-- After `ensureStruct t` the struct `t` exists. -/
theorem hasStruct_ensureStruct (f : File) (t : String) :
    (f.ensureStruct t).hasStruct t = true := by
  unfold File.ensureStruct File.hasStruct
  by_cases h : f.structs.any (fun s => s.name == t) = true
  · simp [h]
  · simp [h]

/-- `ensureStruct` does not change the fields seen under name `t`: when the
struct exists it is reused, and a newly created struct is empty, matching
the empty default of the lookup. -/
theorem structFields_ensureStruct (f : File) (t : String) :
    (f.ensureStruct t).structFields t = f.structFields t := by
  unfold File.ensureStruct File.structFields
  by_cases h : f.structs.any (fun s => s.name == t) = true
  · simp [h]
  · have hnone : f.structs.find? (fun s => s.name == t) = none := by
      rw [List.find?_eq_none]
      intro x hx
      intro hnx
      exact h (List.any_eq_true.mpr ⟨x, hx, hnx⟩)
    simp [h, List.find?_append, hnone]

/-- `ensureStruct` appends the struct name exactly when it was absent. -/
theorem structNames_ensureStruct (f : File) (t : String) :
    (f.ensureStruct t).structs.map Struct.name =
      (if f.hasStruct t then f.structs.map Struct.name
       else f.structs.map Struct.name ++ [t]) := by
  unfold File.ensureStruct File.hasStruct
  by_cases h : f.structs.any (fun s => s.name == t) = true
  · simp [h]
  · simp [h]

/-- The field-append map used by `File.addField`. -/
def addFieldMap (t : String) (fld : GoField) (s : Struct) : Struct :=
  if s.name == t then { s with fields := s.fields ++ [fld] } else s

/-- `addField` is the struct-list map by `addFieldMap`. -/
theorem addField_structs (f : File) (t : String) (fld : GoField) :
    (f.addField t fld).structs = f.structs.map (addFieldMap t fld) := rfl

/-- `addFieldMap` preserves struct names. -/
theorem structNames_map_addFieldMap (t : String) (fld : GoField) (l : List Struct) :
    (l.map (addFieldMap t fld)).map Struct.name = l.map Struct.name := by
  induction l with
  | nil => rfl
  | cons s l ih =>
    by_cases h : s.name == t
    · simp [addFieldMap, h, ih]
    · simp [addFieldMap, h, ih]

/-- `addField` preserves the struct-name list. -/
theorem structNames_addField (f : File) (t : String) (fld : GoField) :
    (f.addField t fld).structs.map Struct.name = f.structs.map Struct.name := by
  rw [addField_structs, structNames_map_addFieldMap]

/-- `addField` preserves struct existence under any name. -/
theorem hasStruct_addField (f : File) (t' t : String) (fld : GoField) :
    (f.addField t' fld).hasStruct t = f.hasStruct t := by
  unfold File.hasStruct
  rw [addField_structs]
  induction f.structs with
  | nil => rfl
  | cons s l ih =>
    by_cases h : s.name == t'
    · simp [addFieldMap, h, ih]
    · simp [addFieldMap, h, ih]

/-- Mapping the field append over a struct list containing the name appends
exactly the one field to the first struct found under that name. -/
theorem findFields_map_addFieldMap (t : String) (fld : GoField) (l : List Struct)
    (h : l.any (fun s => s.name == t) = true) :
    (((l.map (addFieldMap t fld)).find? (fun s => s.name == t)).map Struct.fields).getD [] =
      ((l.find? (fun s => s.name == t)).map Struct.fields).getD [] ++ [fld] := by
  induction l with
  | nil => simp at h
  | cons s l ih =>
    by_cases hs : (s.name == t) = true
    · have hpos : ((addFieldMap t fld s).name == t) = true := by
        simp [addFieldMap, hs]
      rw [List.map_cons,
        List.find?_cons_of_pos (p := fun (s : Struct) => s.name == t) _ hpos,
        List.find?_cons_of_pos (p := fun (s : Struct) => s.name == t) _ hs]
      simp [addFieldMap, hs]
    · have hneg : ((addFieldMap t fld s).name == t) = false := by
        simp [addFieldMap, hs]
      have h' : l.any (fun s => s.name == t) = true := by
        rcases List.any_eq_true.mp h with ⟨x, hx, hxt⟩
        rcases List.mem_cons.mp hx with rfl | hxl
        · exact absurd hxt hs
        · exact List.any_eq_true.mpr ⟨x, hxl, hxt⟩
      rw [List.map_cons,
        List.find?_cons_of_neg (p := fun (s : Struct) => s.name == t) _ (by simp [hneg]),
        List.find?_cons_of_neg (p := fun (s : Struct) => s.name == t) _ (by simpa using hs)]
      exact ih h'

/-- On an existing struct, `addField` appends exactly the one field. -/
theorem structFields_addField (f : File) (t : String) (fld : GoField)
    (h : f.hasStruct t = true) :
    (f.addField t fld).structFields t = f.structFields t ++ [fld] := by
  unfold File.hasStruct at h
  unfold File.structFields
  rw [addField_structs]
  exact findFields_map_addFieldMap t fld f.structs h

/-- Folding the query-parameter step over a parameter list appends one
struct field and one `v.Set` line per parameter, in order, and touches
nothing else. -/
theorem queryParamFold (t : String) (ps : List TypeDecl) (st : ReqState)
    (h : st.file.hasStruct t = true) :
    (ps.foldl (queryParamStep t) st).func = st.func ∧
      (ps.foldl (queryParamStep t) st).file.hasStruct t = true ∧
      (ps.foldl (queryParamStep t) st).file.structFields t =
        st.file.structFields t ++ ps.map (fun p =>
          ⟨translatePropName p.name, translateTypeString (p.type.headD ""), none⟩) ∧
      (ps.foldl (queryParamStep t) st).file.structs.map Struct.name =
        st.file.structs.map Struct.name ∧
      (ps.foldl (queryParamStep t) st).before =
        st.before ++ ps.map (fun p =>
          "v.Set(\"" ++ p.name ++ "\", query." ++ translatePropName p.name ++ ")\n") := by
  induction ps generalizing st with
  | nil => exact ⟨rfl, h, by simp, rfl, by simp⟩
  | cons p ps ih =>
    simp only [List.foldl_cons]
    have hstep : (queryParamStep t st p).file.hasStruct t = true := by
      simp only [queryParamStep]
      rw [hasStruct_addField]
      exact h
    obtain ⟨h1, h2, h3, h4, h5⟩ := ih (queryParamStep t st p) hstep
    refine ⟨?_, h2, ?_, ?_, ?_⟩
    · rw [h1]
      rfl
    · rw [h3]
      simp only [queryParamStep]
      rw [structFields_addField _ _ _ h]
      simp
    · rw [h4]
      simp only [queryParamStep]
      rw [structNames_addField]
    · rw [h5]
      simp only [queryParamStep]
      simp

/-- Claim C5: a method whose resolved query-parameter list (own parameters
plus those of applied traits) is empty yields only the empty query-string
constant — no parameter struct, no extra argument; a non-empty list
declares (or reuses, appending to the existing definition) the
`<name>Params` struct with one field per parameter, adds the `query`
argument, and writes the serialization lines, one `v.Set` per parameter,
between the `url.Values` initialization and the final encode. -/
theorem generateQueryParams_spec (m : RamlMethod) (st : ReqState) :
    ((resolvedQueryParams m).length = 0 →
      generateQueryParams m st = { st with before := st.before ++ ["q := \"\"\n"] }) ∧
      ((resolvedQueryParams m).length ≠ 0 →
        (generateQueryParams m st).func = st.func.addArg "query" (st.func.name ++ "Params") ∧
          (generateQueryParams m st).file.structFields (st.func.name ++ "Params") =
            st.file.structFields (st.func.name ++ "Params") ++
              (resolvedQueryParams m).map (fun p =>
                ⟨translatePropName p.name, translateTypeString (p.type.headD ""), none⟩) ∧
          (generateQueryParams m st).file.structs.map Struct.name =
            (if st.file.hasStruct (st.func.name ++ "Params")
             then st.file.structs.map Struct.name
             else st.file.structs.map Struct.name ++ [st.func.name ++ "Params"]) ∧
          (generateQueryParams m st).before =
            st.before ++ ["v := url.Values\x7b\x7d\n"] ++
              (resolvedQueryParams m).map (fun p =>
                "v.Set(\"" ++ p.name ++ "\", query." ++ translatePropName p.name ++ ")\n") ++
              ["q := \"?\" + v.Encode()\n"]) := by
  constructor
  · intro h0
    simp only [generateQueryParams]
    rw [if_pos h0]
  · intro h0
    simp only [generateQueryParams]
    rw [if_neg h0]
    obtain ⟨h1, h2, h3, h4, h5⟩ :=
      queryParamFold (st.func.name ++ "Params") (resolvedQueryParams m)
        { st with
          file := (st.file.addImport "net/url").ensureStruct (st.func.name ++ "Params"),
          func := st.func.addArg "query" (st.func.name ++ "Params"),
          before := st.before ++ ["v := url.Values\x7b\x7d\n"] }
        (hasStruct_ensureStruct _ _)
    refine ⟨?_, ?_, ?_, ?_⟩
    · exact h1
    · rw [show (st.file.addImport "net/url").ensureStruct (st.func.name ++ "Params")
            = ({ st with
                file := (st.file.addImport "net/url").ensureStruct (st.func.name ++ "Params"),
                func := st.func.addArg "query" (st.func.name ++ "Params"),
                before := st.before ++ ["v := url.Values\x7b\x7d\n"] } : ReqState).file from rfl]
        at h3
      rw [structFields_ensureStruct, structFields_addImport] at h3
      exact h3
    · rw [show (st.file.addImport "net/url").ensureStruct (st.func.name ++ "Params")
            = ({ st with
                file := (st.file.addImport "net/url").ensureStruct (st.func.name ++ "Params"),
                func := st.func.addArg "query" (st.func.name ++ "Params"),
                before := st.before ++ ["v := url.Values\x7b\x7d\n"] } : ReqState).file from rfl]
        at h4
      rw [structNames_ensureStruct, hasStruct_addImport, addImport_structs] at h4
      exact h4
    · rw [h5]

/-- A single declared query parameter of kind integer. -/
def limitParam : TypeDecl := .mk "limit" ["integer"] true [] none none

/-- A method declaring no query parameters and applying no traits. -/
def noQueryMethod : RamlMethod := ⟨"get", none, [], [], [], []⟩

/-- A method declaring one query parameter. -/
def limitQueryMethod : RamlMethod := ⟨"get", none, [limitParam], [], [], []⟩

/-- Witness for the query-parameter claim at a parameterless method and at
a one-parameter method. -/
theorem generateQueryParams_spec_witness :
    (generateQueryParams noQueryMethod (emptyReqState "GetThings") =
      { emptyReqState "GetThings" with
        before := (emptyReqState "GetThings").before ++ ["q := \"\"\n"] }) ∧
      ((generateQueryParams limitQueryMethod (emptyReqState "GetThings")).func =
        (emptyReqState "GetThings").func.addArg "query"
          ((emptyReqState "GetThings").func.name ++ "Params") ∧
        (generateQueryParams limitQueryMethod (emptyReqState "GetThings")).file.structFields
            ((emptyReqState "GetThings").func.name ++ "Params") =
          (emptyReqState "GetThings").file.structFields
              ((emptyReqState "GetThings").func.name ++ "Params") ++
            (resolvedQueryParams limitQueryMethod).map (fun p =>
              ⟨translatePropName p.name, translateTypeString (p.type.headD ""), none⟩) ∧
        (generateQueryParams limitQueryMethod (emptyReqState "GetThings")).file.structs.map Struct.name =
          (if (emptyReqState "GetThings").file.hasStruct
              ((emptyReqState "GetThings").func.name ++ "Params")
           then (emptyReqState "GetThings").file.structs.map Struct.name
           else (emptyReqState "GetThings").file.structs.map Struct.name ++
             [(emptyReqState "GetThings").func.name ++ "Params"]) ∧
        (generateQueryParams limitQueryMethod (emptyReqState "GetThings")).before =
          (emptyReqState "GetThings").before ++ ["v := url.Values\x7b\x7d\n"] ++
            (resolvedQueryParams limitQueryMethod).map (fun p =>
              "v.Set(\"" ++ p.name ++ "\", query." ++ translatePropName p.name ++ ")\n") ++
            ["q := \"?\" + v.Encode()\n"]) :=
  ⟨(generateQueryParams_spec noQueryMethod (emptyReqState "GetThings")).1 rfl,
    (generateQueryParams_spec limitQueryMethod (emptyReqState "GetThings")).2 (by decide)⟩
